import Mathlib

/-!
A shallow embedding of `scripts/aggregate.py` (the aggregation engine of the
watch-index repository) together with proofs of the behavioural claims made
about it.

Modelling conventions:
* CSV rows (`csv.DictReader` dictionaries) become the `Row` structure; a field
  that is absent, or whose cell is empty/missing (`None` in Python), is
  `none` / `some ""` as appropriate.
* A source file is its name together with the outcome of decoding it: `.ok rows`
  when the file decodes, `.error ()` when opening/decoding raises
  (the Python code has no try/except around the file level, so the model
  propagates the error through the run).
* Python `float` values are modelled as exact rationals (`ℚ`).  `float(s)`
  parsing is modelled for the decimal-literal fragment (optional sign, digits,
  optional fractional part, surrounding whitespace); exponent notation and
  inf/nan are outside the modelled fragment.  `round(x, 2)` is modelled as
  round-half-to-even at two decimal places on the exact rational.
* Python dicts (insertion ordered) become association lists; `sorted` on the
  date keys is insertion sort by the code-point lexicographic order, which is
  exactly Python's `str` comparison.
* The wall-clock timestamp read for `updatedAt` is passed in as a parameter
  `now` instead of being read from an ambient clock.
-/

/-- Code-point lexicographic comparison of character lists; this is how Python
compares `str` values (and hence how `sorted` orders the date keys). -/
def lexLe : List Char → List Char → Bool
  | [], _ => true
  | _ :: _, [] => false
  | a :: as, b :: bs => if a < b then true else if a = b then lexLe as bs else false

/-- String order used by `sorted` on date keys: code-point lexicographic. -/
def strLe (a b : String) : Prop := lexLe a.toList b.toList = true

instance : DecidableRel strLe := fun _ _ => inferInstanceAs (Decidable (_ = true))

/-- Strict version of `strLe`: strictly earlier in code-point lexicographic
order. -/
def strLt (a b : String) : Prop := strLe a b ∧ a ≠ b

instance : DecidableRel strLt := fun _ _ => inferInstanceAs (Decidable (_ ∧ _))

/-- Python truthiness of the leading/trailing-whitespace-stripped result:
`s.strip()` for `str`. -/
def pyStrip (s : String) : String :=
  String.mk (((s.toList.dropWhile Char.isWhitespace).reverse.dropWhile
    Char.isWhitespace).reverse)

/-- Numeric value of a digit string, most significant digit first. -/
def digitsVal (cs : List Char) : ℕ := cs.foldl (fun a c => a * 10 + (c.toNat - 48)) 0

/-- Python `float(s)` on the decimal-literal fragment: optional surrounding
whitespace, optional sign, digits with an optional fractional part (at least
one digit overall).  Returns `none` where Python raises `ValueError`. -/
def pyFloat (s : String) : Option ℚ :=
  let t := ((s.toList.dropWhile Char.isWhitespace).reverse.dropWhile
    Char.isWhitespace).reverse
  let sgnRest : ℚ × List Char :=
    match t with
    | '+' :: r => (1, r)
    | '-' :: r => (-1, r)
    | r => (1, r)
  let ip := sgnRest.2.takeWhile Char.isDigit
  let rest2 := sgnRest.2.dropWhile Char.isDigit
  match rest2 with
  | [] => if ip.isEmpty then none else some (sgnRest.1 * digitsVal ip)
  | '.' :: frac =>
      if frac.all Char.isDigit && !(ip.isEmpty && frac.isEmpty) then
        some (sgnRest.1 * ((digitsVal ip : ℚ) + (digitsVal frac : ℚ) / (10 : ℚ) ^ frac.length))
      else none
  | _ => none

/-- One CSV data row as produced by `csv.DictReader`: each expected column is
either absent/`None` (`none`) or holds a string cell.  The two extra columns
(`called_during_rest`, `port_intensity`) are never read by the code and are
omitted from the model. -/
structure Row where
  ship_type : Option String
  region : Option String
  sleep_hours : Option String
  rest_violations : Option String
deriving DecidableEq

/-- One input file: its name and the outcome of opening/decoding it.
`.error ()` models a file whose `open`/decode raises (unreadable file,
encoding error); `.ok rows` models a successfully decoded file. -/
structure SourceFile where
  name : String
  content : Except Unit (List Row)

/-- Python truthiness of an optional string cell: `None` and `""` are falsy. -/
def truthy : Option String → Bool
  | none => false
  | some s => !s.toList.isEmpty

/-- The "basic sanity check" of line 50 of `aggregate.py`:
`not row.get('ship_type') or not row.get('region')` skips the row, so a row is
processed exactly when both cells are truthy. -/
def validRow (row : Row) : Bool := truthy row.ship_type && truthy row.region

/-- Numeric coercion of lines 54-61: `float(row.get(k, 0) or 0)` with
`ValueError` falling back to `0.0`.  An absent key or falsy cell gives `0`;
otherwise `float` is attempted and a parse failure gives `0`. -/
def numField : Option String → ℚ
  | none => 0
  | some s => if s.toList.isEmpty then 0 else (pyFloat s).getD 0

/-- Model of `extract_date_from_filename` (lines 22-30):
`re.match(r'(\d{4})(\d{2})(\d{2})_', filename)` anchors at the start of the
name; on a match the captured digits are reassembled as `"YYYY-MM-DD"`, and
otherwise the function returns `None` (modelled as `Option.none`). -/
def extract_date_from_filename (filename : String) : Option String :=
  match filename.toList with
  | y1 :: y2 :: y3 :: y4 :: m1 :: m2 :: d1 :: d2 :: u :: _ =>
      if (y1.isDigit && y2.isDigit && y3.isDigit && y4.isDigit &&
          m1.isDigit && m2.isDigit && d1.isDigit && d2.isDigit) && u = '_' then
        some (String.mk [y1, y2, y3, y4, '-', m1, m2, '-', d1, d2])
      else none
  | _ => none

/-- Per-date accumulator cell of `daily_data` (line 39): a
`{"count": 0, "sleep_sum": 0.0, "rest_sum": 0.0}` triple. -/
structure DailyData where
  count : ℕ
  sleep_sum : ℚ
  rest_sum : ℚ
deriving DecidableEq

/-- Python dict increment `d[k] = d.get(k, 0) + 1` on an insertion-ordered
dict: update in place when the key exists, append a fresh entry otherwise. -/
def bump : List (String × ℕ) → String → List (String × ℕ)
  | [], k => [(k, 1)]
  | (k', v) :: rest, k =>
      if k' = k then (k', v + 1) :: rest else (k', v) :: bump rest k

/-- The `daily_data[date]` update of lines 67-69 on the insertion-ordered
defaultdict: zero-initialize on first use, then add the row's contribution. -/
def bumpDaily : List (String × DailyData) → String → ℚ → ℚ → List (String × DailyData)
  | [], k, sl, re => [(k, ⟨1, sl, re⟩)]
  | (k', v) :: rest, k, sl, re =>
      if k' = k then (k', ⟨v.count + 1, v.sleep_sum + sl, v.rest_sum + re⟩) :: rest
      else (k', v) :: bumpDaily rest k sl re

/-- The whole mutable state of `aggregate_submissions` before finalisation:
`totals`, `sums`, `by_ship`, `by_region`, `daily_data`. -/
structure AggState where
  submissions : ℕ
  sleep_sum : ℚ
  rest_sum : ℚ
  by_ship : List (String × ℕ)
  by_region : List (String × ℕ)
  daily_data : List (String × DailyData)
deriving DecidableEq

/-- The all-zero initial state of lines 33-39. -/
def initState : AggState := ⟨0, 0, 0, [], [], []⟩

/-- The body of the row loop (lines 48-75) for one row: skip rows failing the
sanity check; otherwise count the row, accumulate its (coerced) numeric
fields, extend the per-date data when the file name yielded a date, and bump
both category tallies with the whitespace-stripped values. -/
def processRow (date : Option String) (st : AggState) (row : Row) : AggState :=
  if validRow row then
    let sleep := numField row.sleep_hours
    let rest := numField row.rest_violations
    { submissions := st.submissions + 1
      sleep_sum := st.sleep_sum + sleep
      rest_sum := st.rest_sum + rest
      by_ship := bump st.by_ship (pyStrip (row.ship_type.getD ""))
      by_region := bump st.by_region (pyStrip (row.region.getD ""))
      daily_data :=
        match date with
        | some d => bumpDaily st.daily_data d sleep rest
        | none => st.daily_data }
  else st

/-- One iteration of the file loop (lines 42-75): extract the date from the
file name, decode the file and fold its rows.  A decode failure raises out of
the loop (there is no try/except), modelled by propagating `.error`. -/
def processFile (st : AggState) (file : SourceFile) : Except Unit AggState :=
  match file.content with
  | .error e => .error e
  | .ok rows => .ok (rows.foldl (processRow (extract_date_from_filename file.name)) st)

/-- The file loop over the globbed files, in enumeration order, threading the
accumulator state and propagating an uncaught decode exception. -/
def runFilesAux (st : AggState) : List SourceFile → Except Unit AggState
  | [] => .ok st
  | f :: fs =>
      match processFile st f with
      | .error e => .error e
      | .ok st' => runFilesAux st' fs

/-- Run the whole file loop from the all-zero state. -/
def runFiles (files : List SourceFile) : Except Unit AggState :=
  runFilesAux initState files

/-- Round-half-to-even to an integer, the rounding Python's builtin `round`
uses at a tie; exact on the rationals of the modelled fragment. -/
def roundHalfEven (q : ℚ) : ℤ :=
  let f := Int.fdiv q.num q.den
  let r := q - (f : ℚ)
  if r < 1 / 2 then f else if 1 / 2 < r then f + 1 else if f % 2 = 0 then f else f + 1

/-- Model of `round(x, 2)`: round-half-to-even at two decimal places. -/
def round2 (q : ℚ) : ℚ := (roundHalfEven (q * 100) : ℚ) / 100

/-- One entry of the `trends` list (lines 87-92). -/
structure TrendEntry where
  date : String
  submissions : ℕ
  avgSleep : ℚ
  avgRestViolations : ℚ
deriving DecidableEq

/-- The output snapshot (lines 94-101): `totals`, `averages`, the two
tallies, the trend sequence and the generation timestamp. -/
structure Metrics where
  totals_submissions : ℕ
  averages_sleepHours : ℚ
  averages_restViolations : ℚ
  byShip : List (String × ℕ)
  byRegion : List (String × ℕ)
  trends : List TrendEntry
  updatedAt : String
deriving DecidableEq

/-- Dict lookup `daily_data[date]` with the defaultdict's zero default. -/
def lookupDaily : List (String × DailyData) → String → DailyData
  | [], _ => ⟨0, 0, 0⟩
  | (k', v) :: rest, k => if k' = k then v else lookupDaily rest k

/-- Lines 84-92: iterate over `sorted(daily_data.keys())` and build the trend
entries, guarding each per-day average against a zero count. -/
def mkTrend (daily : List (String × DailyData)) : List TrendEntry :=
  ((daily.map Prod.fst).insertionSort strLe).map fun d =>
    let data := lookupDaily daily d
    { date := d
      submissions := data.count
      avgSleep := if 0 < data.count then round2 (data.sleep_sum / (data.count : ℚ)) else 0
      avgRestViolations :=
        if 0 < data.count then round2 (data.rest_sum / (data.count : ℚ)) else 0 }

/-- Lines 78-101: turn the final accumulator state into the snapshot.  The
averages are guarded by the truthiness of `totals["submissions"]`. -/
def finalize (st : AggState) (now : String) : Metrics :=
  { totals_submissions := st.submissions
    averages_sleepHours :=
      if st.submissions ≠ 0 then round2 (st.sleep_sum / (st.submissions : ℚ)) else 0
    averages_restViolations :=
      if st.submissions ≠ 0 then round2 (st.rest_sum / (st.submissions : ℚ)) else 0
    byShip := st.by_ship
    byRegion := st.by_region
    trends := mkTrend st.daily_data
    updatedAt := now }

/-- Model of `aggregate_submissions` (lines 32-102) on the globbed file list
in enumeration order; `now` is the wall-clock instant read for `updatedAt`. -/
def aggregate_submissions (files : List SourceFile) (now : String) : Except Unit Metrics :=
  match runFiles files with
  | .error e => .error e
  | .ok st => .ok (finalize st now)

/-- Rows of a file as the row loop sees them (an undecodable file yields no
rows because the run has already aborted). -/
def fileRows (f : SourceFile) : List Row :=
  match f.content with
  | .ok rows => rows
  | .error _ => []

/-- Number of rows of one file that pass the sanity check of line 50. -/
def fileValid (f : SourceFile) : ℕ := (fileRows f).countP validRow

/-- Number of counted rows across all files. -/
def validCount (files : List SourceFile) : ℕ := (files.map fileValid).sum

/-- Number of counted rows across the files whose name yields a date. -/
def datedCount (files : List SourceFile) : ℕ :=
  (files.map fun f =>
    if (extract_date_from_filename f.name).isSome then fileValid f else 0).sum

/-- Total of the per-entry counts of a tally. -/
def sumCounts (l : List (String × ℕ)) : ℕ := (l.map Prod.snd).sum

/-- Total of the per-date counts of the daily data. -/
def sumDaily (l : List (String × DailyData)) : ℕ := (l.map fun p => p.2.count).sum

/-- Total of `trends[*].submissions`. -/
def trendSum (ts : List TrendEntry) : ℕ := (ts.map TrendEntry.submissions).sum

/-- Stated from the spec's words, for comparison with the code: the number of
data rows across all files whose `ship_type` and `region` are both non-empty
AFTER trimming leading/trailing whitespace. -/
def spec_trimValidCount (files : List SourceFile) : ℕ :=
  (files.map fun f => (fileRows f).countP fun row =>
    !(pyStrip (row.ship_type.getD "")).toList.isEmpty &&
    !(pyStrip (row.region.getD "")).toList.isEmpty).sum

/-- The joint structural invariant maintained across the run: positive tally
entries and duplicate-free daily keys. -/
def StateInv (st : AggState) : Prop :=
  (∀ p ∈ st.by_ship, 1 ≤ p.2) ∧ (∀ p ∈ st.by_region, 1 ≤ p.2) ∧
  (∀ p ∈ st.daily_data, 1 ≤ p.2.count) ∧ (st.daily_data.map Prod.fst).Nodup

/-- Stated from the spec's words, for comparison with the code: a name has the
`YYYYMMDD_` shape exactly when it begins with eight digits and an
underscore. -/
def hasDate8 (name : String) : Bool :=
  match name.toList with
  | c1 :: c2 :: c3 :: c4 :: c5 :: c6 :: c7 :: c8 :: u :: _ =>
      (c1.isDigit && c2.isDigit && c3.isDigit && c4.isDigit &&
       c5.isDigit && c6.isDigit && c7.isDigit && c8.isDigit) && u = '_'
  | _ => false

/-- The first eight characters of a name reassembled as `YYYY-MM-DD`. -/
def dashed8 (name : String) : String :=
  match name.toList with
  | c1 :: c2 :: c3 :: c4 :: c5 :: c6 :: c7 :: c8 :: _ =>
      String.mk [c1, c2, c3, c4, '-', c5, c6, '-', c7, c8]
  | _ => ""

/-- A numeric cell that `float` cannot use: absent/`None`, or a string whose
parse fails (`ValueError`); an empty string is also a failing parse. -/
def numFails (o : Option String) : Prop :=
  o = none ∨ ∃ s, o = some s ∧ pyFloat s = none

/-- First row of spec Scenario A: `(tankerA, EU, 6, 1)`. -/
def rowA1 : Row := ⟨some "tankerA", some "EU", some "6", some "1"⟩

/-- Second row of spec Scenario A: `(tankerA, EU, 8, 0)`. -/
def rowA2 : Row := ⟨some "tankerA", some "EU", some "8", some "0"⟩

/-- The Scenario A input file `20240115_090000_a.csv`. -/
def fileA : SourceFile := ⟨"20240115_090000_a.csv", .ok [rowA1, rowA2]⟩

/-- A row whose `ship_type` cell is whitespace only: truthy for the code's
sanity check, but empty after trimming. -/
def rowWs : Row := ⟨some " ", some "EU", some "0", some "0"⟩

/-- A dateless file holding only the whitespace `ship_type` row. -/
def fileWs : SourceFile := ⟨"notes.csv", .ok [rowWs]⟩

/-- A file whose open/decode raises (unreadable file, encoding error). -/
def badFile : SourceFile := ⟨"corrupt.csv", .error ()⟩

/-- The Scenario C style row with a non-numeric `sleep_hours` cell. -/
def rowNA : Row := ⟨some "bulkB", some "APAC", some "N/A", some "2"⟩

/-- A file whose name starts with eight digits that denote no real date. -/
def file99 : SourceFile := ⟨"99999999_x.csv", .ok [rowA1]⟩

/-- Cons-form characterisation of `lexLe`. -/
theorem lexLe_cons_iff {x y : Char} {xs ys : List Char} :
    lexLe (x :: xs) (y :: ys) = true ↔ x < y ∨ (x = y ∧ lexLe xs ys = true) := by
  simp only [lexLe]
  split_ifs with h1 h2
  · simp [h1]
  · simp [h1, h2]
  · simp [h1, h2]

/-- Transitivity of the code-point lexicographic order. -/
theorem lexLe_trans : ∀ (a b c : List Char),
    lexLe a b = true → lexLe b c = true → lexLe a c = true
  | [], _, _ => by intro _ _; rfl
  | _ :: _, [], _ => by intro h _; simp [lexLe] at h
  | _ :: _, _ :: _, [] => by intro _ h; simp [lexLe] at h
  | x :: xs, y :: ys, z :: zs => by
      intro h1 h2
      rw [lexLe_cons_iff] at h1 h2 ⊢
      rcases h1 with h1 | ⟨rfl, h1⟩
      · rcases h2 with h2 | ⟨rfl, h2⟩
        · exact Or.inl (lt_trans h1 h2)
        · exact Or.inl h1
      · rcases h2 with h2 | ⟨rfl, h2⟩
        · exact Or.inl h2
        · exact Or.inr ⟨rfl, lexLe_trans xs ys zs h1 h2⟩

/-- Totality of the code-point lexicographic order. -/
theorem lexLe_total : ∀ (a b : List Char), lexLe a b = true ∨ lexLe b a = true
  | [], _ => Or.inl rfl
  | _ :: _, [] => Or.inr rfl
  | x :: xs, y :: ys => by
      rw [lexLe_cons_iff, lexLe_cons_iff]
      rcases lt_trichotomy x y with h | rfl | h
      · exact Or.inl (Or.inl h)
      · rcases lexLe_total xs ys with h | h
        · exact Or.inl (Or.inr ⟨rfl, h⟩)
        · exact Or.inr (Or.inr ⟨rfl, h⟩)
      · exact Or.inr (Or.inl h)

instance : IsTotal String strLe := ⟨fun a b => lexLe_total a.toList b.toList⟩

instance : IsTrans String strLe :=
  ⟨fun a b c h1 h2 => lexLe_trans a.toList b.toList c.toList h1 h2⟩

/-- Unfolding lemma for tally totals. -/
theorem sumCounts_cons (k : String) (v : ℕ) (l : List (String × ℕ)) :
    sumCounts ((k, v) :: l) = v + sumCounts l := by
  simp [sumCounts]

/-- Unfolding lemma for daily totals. -/
theorem sumDaily_cons (k : String) (v : DailyData) (l : List (String × DailyData)) :
    sumDaily ((k, v) :: l) = v.count + sumDaily l := by
  simp [sumDaily]

/-- Bumping a tally adds exactly one to its total count. -/
theorem sumCounts_bump : ∀ (l : List (String × ℕ)) (k : String),
    sumCounts (bump l k) = sumCounts l + 1
  | [], k => by simp [bump, sumCounts]
  | (k', v) :: rest, k => by
      by_cases h : k' = k
      · simp only [bump, h, if_true, sumCounts_cons]
        omega
      · simp only [bump, h, if_false, sumCounts_cons, sumCounts_bump rest k]
        omega

/-- Bumping a tally keeps every per-entry count positive. -/
theorem pos_bump : ∀ (l : List (String × ℕ)) (k : String),
    (∀ p ∈ l, 1 ≤ p.2) → ∀ p ∈ bump l k, 1 ≤ p.2
  | [], _ => by
      intro _ p hp
      simp [bump] at hp
      simp [hp]
  | (k', v) :: rest, k => by
      intro hl p hp
      by_cases h : k' = k
      · simp only [bump, h, if_true, List.mem_cons] at hp
        rcases hp with rfl | hp
        · simp
        · exact hl p (by simp [hp])
      · simp only [bump, h, if_false, List.mem_cons] at hp
        rcases hp with rfl | hp
        · exact hl (k', v) (by simp)
        · exact pos_bump rest k (fun q hq => hl q (by simp [hq])) p hp

/-- Bumping the daily data adds exactly one to its total count. -/
theorem sumDaily_bumpDaily : ∀ (l : List (String × DailyData)) (k : String) (sl re : ℚ),
    sumDaily (bumpDaily l k sl re) = sumDaily l + 1
  | [], _, _, _ => by simp [bumpDaily, sumDaily]
  | (k', v) :: rest, k, sl, re => by
      by_cases h : k' = k
      · simp only [bumpDaily, h, if_true, sumDaily_cons]
        omega
      · simp only [bumpDaily, h, if_false, sumDaily_cons, sumDaily_bumpDaily rest k sl re]
        omega

/-- Bumping the daily data keeps every per-date count positive. -/
theorem pos_bumpDaily : ∀ (l : List (String × DailyData)) (k : String) (sl re : ℚ),
    (∀ p ∈ l, 1 ≤ p.2.count) → ∀ p ∈ bumpDaily l k sl re, 1 ≤ p.2.count
  | [], _, _, _ => by
      intro _ p hp
      simp [bumpDaily] at hp
      simp [hp]
  | (k', v) :: rest, k, sl, re => by
      intro hl p hp
      by_cases h : k' = k
      · simp only [bumpDaily, h, if_true, List.mem_cons] at hp
        rcases hp with rfl | hp
        · simp
        · exact hl p (by simp [hp])
      · simp only [bumpDaily, h, if_false, List.mem_cons] at hp
        rcases hp with rfl | hp
        · exact hl (k', v) (by simp)
        · exact pos_bumpDaily rest k sl re (fun q hq => hl q (by simp [hq])) p hp

/-- Key list of the bumped daily data: unchanged when the key exists, the key
appended otherwise (Python dicts are insertion ordered). -/
theorem keys_bumpDaily : ∀ (l : List (String × DailyData)) (k : String) (sl re : ℚ),
    (bumpDaily l k sl re).map Prod.fst =
      if k ∈ l.map Prod.fst then l.map Prod.fst else l.map Prod.fst ++ [k]
  | [], k, sl, re => by simp [bumpDaily]
  | (k', v) :: rest, k, sl, re => by
      by_cases h : k' = k
      · simp [bumpDaily, h]
      · by_cases hm : k ∈ rest.map Prod.fst
        · simp [bumpDaily, h, keys_bumpDaily rest k sl re, hm, Ne.symm h]
        · simp [bumpDaily, h, keys_bumpDaily rest k sl re, hm, Ne.symm h]

/-- Bumping the daily data keeps its keys duplicate-free. -/
theorem nodup_keys_bumpDaily (l : List (String × DailyData)) (k : String) (sl re : ℚ)
    (h : (l.map Prod.fst).Nodup) : ((bumpDaily l k sl re).map Prod.fst).Nodup := by
  rw [keys_bumpDaily]
  split_ifs with hm
  · exact h
  · simp [List.nodup_append, h, hm]

/-- Looking up the head key returns the head value. -/
theorem lookupDaily_head (k : String) (v : DailyData) (rest : List (String × DailyData)) :
    lookupDaily ((k, v) :: rest) k = v := by
  simp [lookupDaily]

/-- Looking up another key skips the head entry. -/
theorem lookupDaily_tail {k a : String} (hne : k ≠ a) (v : DailyData)
    (rest : List (String × DailyData)) :
    lookupDaily ((k, v) :: rest) a = lookupDaily rest a := by
  simp [lookupDaily, hne]

/-- With duplicate-free keys, summing the looked-up counts over the key list
recovers the total daily count. -/
theorem sum_lookup_counts : ∀ (l : List (String × DailyData)),
    (l.map Prod.fst).Nodup →
    ((l.map Prod.fst).map fun k => (lookupDaily l k).count).sum = sumDaily l
  | [], _ => rfl
  | (k, v) :: rest, h => by
      simp only [List.map_cons, List.nodup_cons] at h
      simp only [List.map_cons, List.sum_cons, lookupDaily_head, sumDaily_cons]
      have hcongr : ((rest.map Prod.fst).map fun a => (lookupDaily ((k, v) :: rest) a).count) =
          (rest.map Prod.fst).map fun a => (lookupDaily rest a).count := by
        apply List.map_congr_left
        intro a ha
        have hka : k ≠ a := fun heq => h.1 (heq ▸ ha)
        rw [lookupDaily_tail hka]
      rw [hcongr, sum_lookup_counts rest h.2]

/-- The dates of the trend entries are the sorted daily keys. -/
theorem mkTrend_map_date (daily : List (String × DailyData)) :
    (mkTrend daily).map TrendEntry.date = (daily.map Prod.fst).insertionSort strLe := by
  simp [mkTrend, List.map_map, Function.comp_def]

/-- The trend submissions total equals the daily total (keys duplicate-free). -/
theorem trendSum_mkTrend (daily : List (String × DailyData))
    (h : (daily.map Prod.fst).Nodup) : trendSum (mkTrend daily) = sumDaily daily := by
  have hperm : ((daily.map Prod.fst).insertionSort strLe).Perm (daily.map Prod.fst) :=
    List.perm_insertionSort strLe _
  have hmap : (((daily.map Prod.fst).insertionSort strLe).map
      fun k => (lookupDaily daily k).count).Perm
      ((daily.map Prod.fst).map fun k => (lookupDaily daily k).count) := hperm.map _
  calc trendSum (mkTrend daily)
      = (((daily.map Prod.fst).insertionSort strLe).map
          fun k => (lookupDaily daily k).count).sum := by
        simp [trendSum, mkTrend, List.map_map, Function.comp_def]
    _ = ((daily.map Prod.fst).map fun k => (lookupDaily daily k).count).sum := hmap.sum_eq
    _ = sumDaily daily := sum_lookup_counts daily h

/-- The trend dates are strictly ascending (keys duplicate-free). -/
theorem pairwise_mkTrend_date (daily : List (String × DailyData))
    (h : (daily.map Prod.fst).Nodup) :
    ((mkTrend daily).map TrendEntry.date).Pairwise strLt := by
  rw [mkTrend_map_date]
  have hsorted : ((daily.map Prod.fst).insertionSort strLe).Pairwise strLe :=
    List.sorted_insertionSort strLe _
  have hnodup : ((daily.map Prod.fst).insertionSort strLe).Nodup :=
    (List.perm_insertionSort strLe _).nodup_iff.mpr h
  exact (hsorted.and hnodup).imp fun hab => ⟨hab.1, hab.2⟩

/-- Submission count after one row: incremented exactly for counted rows. -/
theorem processRow_submissions (date : Option String) (st : AggState) (row : Row) :
    (processRow date st row).submissions =
      st.submissions + (if validRow row then 1 else 0) := by
  by_cases h : validRow row <;> simp [processRow, h]

/-- Ship-tally total after one row: incremented exactly for counted rows. -/
theorem processRow_sumShip (date : Option String) (st : AggState) (row : Row) :
    sumCounts (processRow date st row).by_ship =
      sumCounts st.by_ship + (if validRow row then 1 else 0) := by
  by_cases h : validRow row <;> simp [processRow, h, sumCounts_bump]

/-- Region-tally total after one row: incremented exactly for counted rows. -/
theorem processRow_sumRegion (date : Option String) (st : AggState) (row : Row) :
    sumCounts (processRow date st row).by_region =
      sumCounts st.by_region + (if validRow row then 1 else 0) := by
  by_cases h : validRow row <;> simp [processRow, h, sumCounts_bump]

/-- Daily total after one row: incremented exactly for counted rows of a file
whose name yields a date. -/
theorem processRow_sumDaily (date : Option String) (st : AggState) (row : Row) :
    sumDaily (processRow date st row).daily_data =
      sumDaily st.daily_data + (if validRow row && date.isSome then 1 else 0) := by
  by_cases h : validRow row
  · cases date <;> simp [processRow, h, sumDaily_bumpDaily]
  · simp [processRow, h]

/-- A row failing the sanity check leaves the whole state untouched. -/
theorem processRow_invalid (date : Option String) (st : AggState) (row : Row)
    (h : validRow row = false) : processRow date st row = st := by
  simp [processRow, h]

/-- A fold preserves any property each step preserves. -/
theorem foldl_preserve {α β : Type} (f : α → β → α) (P : α → Prop)
    (hstep : ∀ st b, P st → P (f st b)) : ∀ (l : List β) (st : α), P st → P (l.foldl f st)
  | [], _ => fun h => h
  | b :: l, st => fun h => foldl_preserve f P hstep l (f st b) (hstep st b h)

/-- One row keeps per-entry tally counts positive and daily keys
duplicate-free. -/
theorem processRow_preserves (date : Option String) (st : AggState) (row : Row) :
    ((∀ p ∈ st.by_ship, 1 ≤ p.2) → ∀ p ∈ (processRow date st row).by_ship, 1 ≤ p.2) ∧
    ((∀ p ∈ st.by_region, 1 ≤ p.2) → ∀ p ∈ (processRow date st row).by_region, 1 ≤ p.2) ∧
    ((∀ p ∈ st.daily_data, 1 ≤ p.2.count) →
      ∀ p ∈ (processRow date st row).daily_data, 1 ≤ p.2.count) ∧
    ((st.daily_data.map Prod.fst).Nodup →
      ((processRow date st row).daily_data.map Prod.fst).Nodup) := by
  by_cases h : validRow row
  · cases date with
    | none =>
        refine ⟨?_, ?_, ?_, ?_⟩ <;> simp only [processRow, h, if_true] <;>
          intro hp
        · exact pos_bump _ _ hp
        · exact pos_bump _ _ hp
        · exact hp
        · exact hp
    | some d =>
        refine ⟨?_, ?_, ?_, ?_⟩ <;> simp only [processRow, h, if_true] <;>
          intro hp
        · exact pos_bump _ _ hp
        · exact pos_bump _ _ hp
        · exact pos_bumpDaily _ _ _ _ hp
        · exact nodup_keys_bumpDaily _ _ _ _ hp
  · simp [processRow, h]

/-- Submission count after folding a file's rows. -/
theorem foldRows_submissions (date : Option String) : ∀ (rows : List Row) (st : AggState),
    (rows.foldl (processRow date) st).submissions = st.submissions + rows.countP validRow
  | [], st => by simp
  | r :: rs, st => by
      rw [List.foldl_cons, foldRows_submissions date rs, processRow_submissions,
        List.countP_cons]
      by_cases h : validRow r <;> simp [h] <;> omega

/-- Ship-tally total after folding a file's rows. -/
theorem foldRows_sumShip (date : Option String) : ∀ (rows : List Row) (st : AggState),
    sumCounts (rows.foldl (processRow date) st).by_ship =
      sumCounts st.by_ship + rows.countP validRow
  | [], st => by simp
  | r :: rs, st => by
      rw [List.foldl_cons, foldRows_sumShip date rs, processRow_sumShip, List.countP_cons]
      by_cases h : validRow r <;> simp [h] <;> omega

/-- Region-tally total after folding a file's rows. -/
theorem foldRows_sumRegion (date : Option String) : ∀ (rows : List Row) (st : AggState),
    sumCounts (rows.foldl (processRow date) st).by_region =
      sumCounts st.by_region + rows.countP validRow
  | [], st => by simp
  | r :: rs, st => by
      rw [List.foldl_cons, foldRows_sumRegion date rs, processRow_sumRegion, List.countP_cons]
      by_cases h : validRow r <;> simp [h] <;> omega

/-- Daily total after folding a file's rows: counted rows contribute exactly
when the file name yielded a date. -/
theorem foldRows_sumDaily (date : Option String) : ∀ (rows : List Row) (st : AggState),
    sumDaily (rows.foldl (processRow date) st).daily_data =
      sumDaily st.daily_data + (if date.isSome then rows.countP validRow else 0)
  | [], st => by simp
  | r :: rs, st => by
      rw [List.foldl_cons, foldRows_sumDaily date rs, processRow_sumDaily, List.countP_cons]
      by_cases h : validRow r <;> cases date <;> simp [h] <;> omega

/-- One row preserves the joint structural invariant. -/
theorem processRow_inv (date : Option String) (st : AggState) (row : Row)
    (h : StateInv st) : StateInv (processRow date st row) := by
  obtain ⟨h1, h2, h3, h4⟩ := h
  obtain ⟨g1, g2, g3, g4⟩ := processRow_preserves date st row
  exact ⟨g1 h1, g2 h2, g3 h3, g4 h4⟩

/-- The run-level accounting: when the file loop completes, the submission
count, both tally totals and the daily total grow by the counted-row totals of
the processed files, and the structural invariant is preserved. -/
theorem runFilesAux_spec : ∀ (files : List SourceFile) (st st' : AggState),
    runFilesAux st files = .ok st' →
    st'.submissions = st.submissions + validCount files ∧
    sumCounts st'.by_ship = sumCounts st.by_ship + validCount files ∧
    sumCounts st'.by_region = sumCounts st.by_region + validCount files ∧
    sumDaily st'.daily_data = sumDaily st.daily_data + datedCount files ∧
    (StateInv st → StateInv st')
  | [], st, st' => by
      intro h
      simp only [runFilesAux] at h
      cases h
      simp [validCount, datedCount]
  | f :: fs, st, st' => by
      intro h
      simp only [runFilesAux, processFile] at h
      cases hc : f.content with
      | error e => rw [hc] at h; cases h
      | ok rows =>
          rw [hc] at h
          set st1 := rows.foldl (processRow (extract_date_from_filename f.name)) st with hst1
          obtain ⟨e1, e2, e3, e4, e5⟩ := runFilesAux_spec fs st1 st' h
          have hrows : fileRows f = rows := by simp [fileRows, hc]
          have hvc : validCount (f :: fs) = rows.countP validRow + validCount fs := by
            simp [validCount, fileValid, hrows]
          have hdc : datedCount (f :: fs) =
              (if (extract_date_from_filename f.name).isSome then rows.countP validRow else 0) +
                datedCount fs := by
            simp only [datedCount, List.map_cons, List.sum_cons, fileValid, hrows]
          refine ⟨?_, ?_, ?_, ?_, ?_⟩
          · rw [e1, hst1, foldRows_submissions, hvc]; omega
          · rw [e2, hst1, foldRows_sumShip, hvc]; omega
          · rw [e3, hst1, foldRows_sumRegion, hvc]; omega
          · rw [e4, hst1, foldRows_sumDaily, hdc]; omega
          · intro hinv
            exact e5 (foldl_preserve _ StateInv
              (fun s r hs => processRow_inv _ s r hs) rows st hinv)

/-- Inverting a successful aggregation into its run state. -/
theorem aggregate_ok_elim {files : List SourceFile} {now : String} {m : Metrics}
    (h : aggregate_submissions files now = .ok m) :
    ∃ st, runFiles files = .ok st ∧ m = finalize st now := by
  unfold aggregate_submissions at h
  cases hr : runFiles files with
  | error e => rw [hr] at h; cases h
  | ok st => rw [hr] at h; cases h; exact ⟨st, rfl, rfl⟩

/-- Cons unfolding of `validCount`. -/
theorem validCount_cons (f : SourceFile) (fs : List SourceFile) :
    validCount (f :: fs) = fileValid f + validCount fs := by
  simp [validCount]

/-- Cons unfolding of `datedCount`. -/
theorem datedCount_cons (f : SourceFile) (fs : List SourceFile) :
    datedCount (f :: fs) =
      (if (extract_date_from_filename f.name).isSome then fileValid f else 0) +
        datedCount fs := by
  simp [datedCount]

/-- Dated counted rows are a subset of all counted rows. -/
theorem datedCount_le : ∀ (files : List SourceFile), datedCount files ≤ validCount files
  | [] => le_refl 0
  | f :: fs => by
      rw [datedCount_cons, validCount_cons]
      have h1 := datedCount_le fs
      have h2 : (if (extract_date_from_filename f.name).isSome then fileValid f else 0) ≤
          fileValid f := by split_ifs <;> omega
      omega

/-- Dated counted rows exhaust all counted rows exactly when every file with a
counted row has a parsable date prefix. -/
theorem datedCount_eq_iff : ∀ (files : List SourceFile),
    datedCount files = validCount files ↔
      ∀ f ∈ files, 0 < fileValid f → (extract_date_from_filename f.name).isSome = true
  | [] => by simp [datedCount, validCount]
  | f :: fs => by
      rw [datedCount_cons, validCount_cons, List.forall_mem_cons]
      have hle := datedCount_le fs
      have hheadle : (if (extract_date_from_filename f.name).isSome then fileValid f else 0) ≤
          fileValid f := by split_ifs <;> omega
      constructor
      · intro h
        have h2 : (if (extract_date_from_filename f.name).isSome then fileValid f else 0) =
            fileValid f ∧ datedCount fs = validCount fs := by omega
        refine ⟨fun hpos => ?_, (datedCount_eq_iff fs).mp h2.2⟩
        by_cases hs : (extract_date_from_filename f.name).isSome = true
        · exact hs
        · have hz : (if (extract_date_from_filename f.name).isSome then fileValid f else 0) =
              0 := by simp [hs]
          omega
      · rintro ⟨hf, hfs⟩
        have h2 : datedCount fs = validCount fs := (datedCount_eq_iff fs).mpr hfs
        by_cases hs : (extract_date_from_filename f.name).isSome = true
        · simp [hs, h2]
        · have hz : fileValid f = 0 := by
            by_contra hnz
            exact hs (hf (by omega))
          simp [hz, h2]

/-- A tally with a zero total and positive entries is empty. -/
theorem eq_nil_of_sumCounts_zero : ∀ (l : List (String × ℕ)),
    sumCounts l = 0 → (∀ p ∈ l, 1 ≤ p.2) → l = []
  | [], _, _ => rfl
  | (k, v) :: rest, h, hp => by
      rw [sumCounts_cons] at h
      have := hp (k, v) (by simp)
      simp at this
      omega

/-- Daily data with a zero total and positive counts is empty. -/
theorem eq_nil_of_sumDaily_zero : ∀ (l : List (String × DailyData)),
    sumDaily l = 0 → (∀ p ∈ l, 1 ≤ p.2.count) → l = []
  | [], _, _ => rfl
  | (k, v) :: rest, h, hp => by
      rw [sumDaily_cons] at h
      have := hp (k, v) (by simp)
      simp at this
      omega

/-- A file whose decode raises aborts the file loop wherever it sits. -/
theorem runFilesAux_error : ∀ (files : List SourceFile) (st : AggState) (f : SourceFile),
    f ∈ files → f.content = .error () → runFilesAux st files = .error ()
  | [], _, _ => by intro hm _; simp at hm
  | g :: fs, st, f => by
      intro hm herr
      rcases List.mem_cons.mp hm with rfl | hmem
      · simp [runFilesAux, processFile, herr]
      · cases hc : g.content with
        | error e =>
            cases e
            simp [runFilesAux, processFile, hc]
        | ok rows =>
            simp only [runFilesAux, processFile, hc]
            exact runFilesAux_error fs _ f hmem herr

/-- A failing numeric cell is coerced to zero by lines 54-61. -/
theorem numFails_numField {o : Option String} (h : numFails o) : numField o = 0 := by
  rcases h with rfl | ⟨s, rfl, hs⟩
  · rfl
  · by_cases he : s.toList.isEmpty <;> simp [numField, he, hs]

/-- The invariant holds at the all-zero state. -/
theorem stateInv_init : StateInv initState := by
  simp [StateInv, initState]

/-- C1 (counterexample): the claim as stated fails.  On a single file whose
only row has a whitespace-only `ship_type` and region `EU`, the code counts
the row (`totals.submissions = 1`), yet the number of rows whose fields are
both non-empty after trimming is `0`: line 50 tests truthiness of the raw
cell, not of the trimmed cell. -/
theorem c1_counterexample :
    (aggregate_submissions [fileWs] "t").map Metrics.totals_submissions = .ok 1 ∧
    spec_trimValidCount [fileWs] = 0 := by
  constructor
  · simp +decide [aggregate_submissions, runFiles, runFilesAux, processFile, processRow,
      initState, validRow, truthy, numField, pyFloat, digitsVal, bump, bumpDaily, fileWs,
      rowWs, extract_date_from_filename, finalize, Except.map]
  · simp +decide [spec_trimValidCount, fileWs, rowWs, fileRows, pyStrip]

/-- C1 (amended): for every set of input files on which the run succeeds,
`totals.submissions` equals the number of data rows, across all files, whose
`ship_type` and `region` fields are both present and non-empty BEFORE any
trimming (a whitespace-only value counts); a row missing either field
(empty/absent) is excluded entirely, contributing neither to counts nor to
sums — processing it is a no-op on the whole accumulator state. -/
theorem c1_amended :
    (∀ (files : List SourceFile) (now : String) (m : Metrics),
        aggregate_submissions files now = .ok m →
        m.totals_submissions = validCount files) ∧
    (∀ (date : Option String) (st : AggState) (row : Row),
        validRow row = false → processRow date st row = st) := by
  constructor
  · intro files now m h
    obtain ⟨st, hrun, rfl⟩ := aggregate_ok_elim h
    have := (runFilesAux_spec files initState st hrun).1
    simpa [finalize, initState] using this
  · exact processRow_invalid

/-- C1 (witness): the amended claim applied at the empty file set, and the
no-op applied at the all-absent row. -/
theorem c1_amended_witness :
    (finalize initState "t1").totals_submissions = validCount [] ∧
    processRow none initState ⟨none, none, none, none⟩ = initState :=
  ⟨c1_amended.1 [] "t1" (finalize initState "t1") rfl,
   c1_amended.2 none initState ⟨none, none, none, none⟩ rfl⟩

/-- C2: on every successful run, the `byShip` counts and the `byRegion`
counts each sum to `totals.submissions` (hence to each other): every counted
record bumps exactly one entry of each tally (lines 52 and 74-75). -/
theorem c2_tally_sums : ∀ (files : List SourceFile) (now : String) (m : Metrics),
    aggregate_submissions files now = .ok m →
    sumCounts m.byShip = m.totals_submissions ∧
    sumCounts m.byRegion = m.totals_submissions ∧
    sumCounts m.byShip = sumCounts m.byRegion := by
  intro files now m h
  obtain ⟨st, hrun, rfl⟩ := aggregate_ok_elim h
  obtain ⟨e1, e2, e3, -, -⟩ := runFilesAux_spec files initState st hrun
  simp only [initState, sumCounts, List.map_nil, List.sum_nil] at e1 e2 e3
  simp only [finalize, sumCounts]
  omega

/-- C2 (witness): the tally-sum theorem applied at the empty file set. -/
theorem c2_tally_sums_witness :
    sumCounts (finalize initState "t2").byShip = (finalize initState "t2").totals_submissions ∧
    sumCounts (finalize initState "t2").byRegion = (finalize initState "t2").totals_submissions ∧
    sumCounts (finalize initState "t2").byShip = sumCounts (finalize initState "t2").byRegion :=
  c2_tally_sums [] "t2" (finalize initState "t2") rfl

/-- C3 (counterexample): the claim as stated fails.  With an undecodable file
followed by a decodable one, the whole run returns the decoding error instead
of skipping the bad file: lines 46-47 have no try/except, so the exception
propagates.  Aggregating the good file alone yields `totals.submissions = 2`,
which is what continuing would have produced. -/
theorem c3_counterexample :
    aggregate_submissions [badFile, fileA] "t" = .error () ∧
    (aggregate_submissions [fileA] "t").map Metrics.totals_submissions = .ok 2 := by
  constructor
  · rfl
  · simp +decide [aggregate_submissions, runFiles, runFilesAux, processFile, processRow,
      initState, validRow, truthy, numField, pyFloat, digitsVal, bump, bumpDaily, fileA,
      rowA1, rowA2, extract_date_from_filename, finalize, Except.map]

/-- C3 (amended): a decoding-level failure on any file in the input set aborts
the entire run with that error — no snapshot is produced and no remaining file
is aggregated; the failure is never skipped. -/
theorem c3_amended : ∀ (files : List SourceFile) (now : String) (f : SourceFile),
    f ∈ files → f.content = .error () →
    aggregate_submissions files now = .error () := by
  intro files now f hm he
  unfold aggregate_submissions runFiles
  rw [runFilesAux_error files initState f hm he]

/-- C3 (witness): the amended claim applied at a one-file input whose file is
undecodable. -/
theorem c3_amended_witness : aggregate_submissions [badFile] "t3" = .error () :=
  c3_amended [badFile] "t3" badFile (by simp) rfl

/-- C4: when `totals.submissions` is 0 (no files, or no counted records), the
run does not fault on division — both averages are the guarded `0` of lines
79-80 — and the snapshot's `byShip`, `byRegion` and `trends` are all empty. -/
theorem c4_zero_submissions : ∀ (files : List SourceFile) (now : String) (m : Metrics),
    aggregate_submissions files now = .ok m → m.totals_submissions = 0 →
    m.averages_sleepHours = 0 ∧ m.averages_restViolations = 0 ∧
    m.byShip = [] ∧ m.byRegion = [] ∧ m.trends = [] := by
  intro files now m h h0
  obtain ⟨st, hrun, rfl⟩ := aggregate_ok_elim h
  obtain ⟨e1, e2, e3, e4, e5⟩ := runFilesAux_spec files initState st hrun
  have hsub : st.submissions = 0 := h0
  simp only [initState, sumCounts, sumDaily, List.map_nil, List.sum_nil] at e1 e2 e3 e4
  have hinv : StateInv st := e5 stateInv_init
  have hvc : validCount files = 0 := by omega
  have hship : st.by_ship = [] :=
    eq_nil_of_sumCounts_zero _ (by simp only [sumCounts]; omega) hinv.1
  have hregion : st.by_region = [] :=
    eq_nil_of_sumCounts_zero _ (by simp only [sumCounts]; omega) hinv.2.1
  have hd0 : sumDaily st.daily_data = 0 := by
    have := datedCount_le files
    simp only [sumDaily]
    omega
  have hdaily : st.daily_data = [] := eq_nil_of_sumDaily_zero _ hd0 hinv.2.2.1
  refine ⟨?_, ?_, ?_, ?_, ?_⟩ <;>
    simp [finalize, hsub, hship, hregion, hdaily, mkTrend]

/-- C4 (witness): the zero-submissions theorem applied at the empty file set. -/
theorem c4_zero_submissions_witness :
    (finalize initState "t4").averages_sleepHours = 0 ∧
    (finalize initState "t4").averages_restViolations = 0 ∧
    (finalize initState "t4").byShip = [] ∧
    (finalize initState "t4").byRegion = [] ∧
    (finalize initState "t4").trends = [] :=
  c4_zero_submissions [] "t4" (finalize initState "t4") rfl rfl

/-- C5: the date extractor is a pure total function of the name: a name
beginning with eight digits and an underscore yields `some` of those digits
reformatted as `YYYY-MM-DD`, and every other name yields `none` — a result
distinct by construction from `some` of any date string, and the function
never raises (it is total).  Determinism is intrinsic to a Lean function. -/
theorem c5_extractor (name : String) :
    extract_date_from_filename name =
      if hasDate8 name then some (dashed8 name) else none := by
  unfold extract_date_from_filename hasDate8 dashed8
  generalize name.toList = l
  rcases l with - | ⟨c1, - | ⟨c2, - | ⟨c3, - | ⟨c4, - | ⟨c5, - | ⟨c6,
    - | ⟨c7, - | ⟨c8, - | ⟨u, rest⟩⟩⟩⟩⟩⟩⟩⟩⟩ <;> simp

/-- C6: on every successful run the trend dates are strictly ascending (hence
pairwise distinct), the trend submissions sum to at most `totals.submissions`,
with equality exactly when every file that contributed a counted record has a
parsable date prefix in its name. -/
theorem c6_trends : ∀ (files : List SourceFile) (now : String) (m : Metrics),
    aggregate_submissions files now = .ok m →
    (m.trends.map TrendEntry.date).Pairwise strLt ∧
    trendSum m.trends ≤ m.totals_submissions ∧
    (trendSum m.trends = m.totals_submissions ↔
      ∀ f ∈ files, 0 < fileValid f → (extract_date_from_filename f.name).isSome = true) := by
  intro files now m h
  obtain ⟨st, hrun, rfl⟩ := aggregate_ok_elim h
  obtain ⟨e1, -, -, e4, e5⟩ := runFilesAux_spec files initState st hrun
  have hinv : StateInv st := e5 stateInv_init
  have hnodup := hinv.2.2.2
  simp only [initState, sumDaily, List.map_nil, List.sum_nil] at e1 e4
  have hsub : st.submissions = validCount files := by omega
  have hdai : sumDaily st.daily_data = datedCount files := by simp only [sumDaily]; omega
  have htr : trendSum (finalize st now).trends = datedCount files := by
    simp only [finalize]
    rw [trendSum_mkTrend _ hnodup, hdai]
  refine ⟨?_, ?_, ?_⟩
  · simp only [finalize]
    exact pairwise_mkTrend_date _ hnodup
  · rw [htr]
    show _ ≤ (finalize st now).totals_submissions
    simp only [finalize, hsub]
    exact datedCount_le files
  · rw [htr]
    show _ = (finalize st now).totals_submissions ↔ _
    simp only [finalize, hsub]
    exact datedCount_eq_iff files

/-- C6 (witness): the trend-shape theorem applied at the empty file set. -/
theorem c6_trends_witness :
    ((finalize initState "t6").trends.map TrendEntry.date).Pairwise strLt ∧
    trendSum (finalize initState "t6").trends ≤ (finalize initState "t6").totals_submissions ∧
    (trendSum (finalize initState "t6").trends = (finalize initState "t6").totals_submissions ↔
      ∀ f ∈ ([] : List SourceFile), 0 < fileValid f →
        (extract_date_from_filename f.name).isSome = true) :=
  c6_trends [] "t6" (finalize initState "t6") rfl

/-- C7: a row that passes the sanity check but whose `sleep_hours` or
`rest_violations` cell is missing or fails numeric parsing is still counted —
submissions and both tallies are incremented — with the failing value coerced
to 0; no error escapes (the step is a total function of the state). -/
theorem c7_coerced_row : ∀ (date : Option String) (st : AggState) (row : Row),
    validRow row = true →
    numFails row.sleep_hours ∨ numFails row.rest_violations →
    (numFails row.sleep_hours → numField row.sleep_hours = 0) ∧
    (numFails row.rest_violations → numField row.rest_violations = 0) ∧
    (processRow date st row).submissions = st.submissions + 1 ∧
    sumCounts (processRow date st row).by_ship = sumCounts st.by_ship + 1 ∧
    sumCounts (processRow date st row).by_region = sumCounts st.by_region + 1 := by
  intro date st row hv _
  refine ⟨fun h => numFails_numField h, fun h => numFails_numField h, ?_, ?_, ?_⟩
  · rw [processRow_submissions]
    simp [hv]
  · rw [processRow_sumShip]
    simp [hv]
  · rw [processRow_sumRegion]
    simp [hv]

/-- C7 (witness): the coercion theorem applied to the Scenario C row with
non-numeric `sleep_hours` of `"N/A"`. -/
theorem c7_coerced_row_witness :
    (numFails rowNA.sleep_hours → numField rowNA.sleep_hours = 0) ∧
    (numFails rowNA.rest_violations → numField rowNA.rest_violations = 0) ∧
    (processRow none initState rowNA).submissions = initState.submissions + 1 ∧
    sumCounts (processRow none initState rowNA).by_ship = sumCounts initState.by_ship + 1 ∧
    sumCounts (processRow none initState rowNA).by_region = sumCounts initState.by_region + 1 :=
  c7_coerced_row none initState rowNA (by decide)
    (Or.inl (Or.inr ⟨"N/A", rfl, by decide⟩))

/-- C8 (Scenario A): one file `20240115_090000_a.csv` with rows
`(tankerA, EU, 6, 1)` and `(tankerA, EU, 8, 0)` aggregates to
`totals.submissions = 2`, `byShip = {"tankerA": 2}`, `byRegion = {"EU": 2}`,
`averages = {sleepHours: 7.0, restViolations: 0.5}` and a single trend entry
`{date: "2024-01-15", submissions: 2, avgSleep: 7.0, avgRestViolations: 0.5}`,
for any wall-clock instant. -/
theorem c8_scenarioA (now : String) :
    aggregate_submissions [fileA] now = .ok
      { totals_submissions := 2
        averages_sleepHours := 7
        averages_restViolations := 1 / 2
        byShip := [("tankerA", 2)]
        byRegion := [("EU", 2)]
        trends := [⟨"2024-01-15", 2, 7, 1 / 2⟩]
        updatedAt := now } := by
  simp +decide [aggregate_submissions, runFiles, runFilesAux, processFile, processRow,
    initState, validRow, truthy, numField, pyFloat, digitsVal, bump, bumpDaily, fileA,
    rowA1, rowA2, extract_date_from_filename, finalize, mkTrend, lookupDaily,
    List.insertionSort, List.orderedInsert, round2, roundHalfEven]
  norm_num

/-- C9: the aggregation is deterministic in everything but the timestamp —
two successful runs over the same file list (same contents, same enumeration
order) agree on totals, averages, both tallies and trends; only `updatedAt`
(the injected clock reading of line 100) may differ. -/
theorem c9_idempotent : ∀ (files : List SourceFile) (t1 t2 : String) (m1 m2 : Metrics),
    aggregate_submissions files t1 = .ok m1 → aggregate_submissions files t2 = .ok m2 →
    m1.totals_submissions = m2.totals_submissions ∧
    m1.averages_sleepHours = m2.averages_sleepHours ∧
    m1.averages_restViolations = m2.averages_restViolations ∧
    m1.byShip = m2.byShip ∧ m1.byRegion = m2.byRegion ∧ m1.trends = m2.trends := by
  intro files t1 t2 m1 m2 h1 h2
  obtain ⟨st1, hr1, rfl⟩ := aggregate_ok_elim h1
  obtain ⟨st2, hr2, rfl⟩ := aggregate_ok_elim h2
  rw [hr1] at hr2
  injection hr2 with hst
  subst hst
  simp [finalize]

/-- C9 (witness): two runs over the empty file set with different clock
readings. -/
theorem c9_idempotent_witness :
    (finalize initState "ta").totals_submissions = (finalize initState "tb").totals_submissions ∧
    (finalize initState "ta").averages_sleepHours =
      (finalize initState "tb").averages_sleepHours ∧
    (finalize initState "ta").averages_restViolations =
      (finalize initState "tb").averages_restViolations ∧
    (finalize initState "ta").byShip = (finalize initState "tb").byShip ∧
    (finalize initState "ta").byRegion = (finalize initState "tb").byRegion ∧
    (finalize initState "ta").trends = (finalize initState "tb").trends :=
  c9_idempotent [] "ta" "tb" (finalize initState "ta") (finalize initState "tb") rfl rfl

/-- C10 (implicit): the extractor performs no calendar validation — any eight
digits followed by an underscore (no `HHMMSS` needed) are reformatted as
`YYYY-MM-DD` even when they denote no real date, so a file named
`99999999_x.csv` puts the impossible date `9999-99-99` into the trend
sequence. -/
theorem c10_no_calendar_validation :
    (∀ (c1 c2 c3 c4 c5 c6 c7 c8 : Char) (rest : List Char),
        (c1.isDigit && c2.isDigit && c3.isDigit && c4.isDigit &&
         c5.isDigit && c6.isDigit && c7.isDigit && c8.isDigit) = true →
        extract_date_from_filename
            (String.mk (c1 :: c2 :: c3 :: c4 :: c5 :: c6 :: c7 :: c8 :: '_' :: rest)) =
          some (String.mk [c1, c2, c3, c4, '-', c5, c6, '-', c7, c8])) ∧
    extract_date_from_filename "99999999_x.csv" = some "9999-99-99" ∧
    (aggregate_submissions [file99] "t").map (fun m => m.trends.map TrendEntry.date) =
      .ok ["9999-99-99"] := by
  refine ⟨?_, by decide, ?_⟩
  · intro c1 c2 c3 c4 c5 c6 c7 c8 rest h
    have htl : (String.mk
        (c1 :: c2 :: c3 :: c4 :: c5 :: c6 :: c7 :: c8 :: '_' :: rest)).toList =
        c1 :: c2 :: c3 :: c4 :: c5 :: c6 :: c7 :: c8 :: '_' :: rest := rfl
    unfold extract_date_from_filename
    rw [htl]
    simp only [h]
    simp
  · simp +decide [aggregate_submissions, runFiles, runFilesAux, processFile, processRow,
      initState, validRow, truthy, numField, pyFloat, digitsVal, bump, bumpDaily, file99,
      rowA1, extract_date_from_filename, finalize, mkTrend, lookupDaily,
      List.insertionSort, List.orderedInsert, Except.map]

/-- C10 (witness): the universal part applied at the all-nines name. -/
theorem c10_no_calendar_validation_witness :
    extract_date_from_filename
        (String.mk ['9', '9', '9', '9', '9', '9', '9', '9', '_', 'x']) =
      some (String.mk ['9', '9', '9', '9', '-', '9', '9', '-', '9', '9']) :=
  c10_no_calendar_validation.1 '9' '9' '9' '9' '9' '9' '9' '9' ['x'] (by decide)
